import Mathlib

/-!
Shallow embedding of a small category/product HTTP service backed by a
relational store, together with proofs about its behaviour.

The store is a pair of tables: categories with id and a unique name, and
products with id, name, price, a foreign key category_id and a creation
date (day granularity, encoded as a day number).  Fallible operations
return Except or a dedicated Outcome type mirroring the response the
boundary layer would produce.
-/

namespace CatStore

/-- A row of the categories table: system-assigned id and a unique name. -/
structure Category where
  id : Nat
  name : String
deriving DecidableEq, Repr

/-- A row of the products table. The price is a rational number and
created_at is a calendar date encoded as a day number. -/
structure Product where
  id : Nat
  name : String
  price : Rat
  category_id : Nat
  created_at : Nat
deriving DecidableEq, Repr

/-- The relational store: both tables plus the autoincrement counters. -/
structure Store where
  categories : List Category
  products : List Product
  nextCategoryId : Nat
  nextProductId : Nat
deriving DecidableEq, Repr

/-- The exception classes the handlers distinguish: the driver-specific
uniqueness and foreign-key violations, the sqlite integrity error, and any
other exception. -/
inductive ExcType where
  | uniqueViolation
  | fkViolation
  | sqliteIntegrity
  | generic
deriving DecidableEq, Repr

/-- A raised exception: its class together with its message text. -/
structure Exc where
  ty : ExcType
  msg : String
deriving DecidableEq, Repr

/-- The observable result of a handler call: a successful payload, an HTTP
error response with status code and detail, or an exception that escaped
the handler unhandled. -/
inductive Outcome (α : Type) where
  | ok : α → Outcome α
  | httpError : Nat → String → Outcome α
  | unhandled : Exc → Outcome α
deriving DecidableEq, Repr

/-- Whether the second character list occurs at the start of the first. -/
def charsStartWith : List Char → List Char → Bool
  | _, [] => true
  | [], _ :: _ => false
  | c :: cs, p :: ps => c == p && charsStartWith cs ps

/-- Whether the second character list occurs anywhere inside the first. -/
def charsContain : List Char → List Char → Bool
  | [], pat => pat.isEmpty
  | c :: cs, pat => charsStartWith (c :: cs) pat || charsContain cs pat

/-- Python substring test pat in s on strings. -/
def strContains (s pat : String) : Bool :=
  charsContain s.data pat.data

/-- Python str.lower, character by character. -/
def strToLower (s : String) : String :=
  ⟨s.data.map Char.toLower⟩

/-- Modelled from the spec: the schema layer (models, not under src)
declares categories.name unique; the sqlite driver used by the tests
reports a violated uniqueness constraint with this message. -/
def sqliteUniqueMsg : String := "UNIQUE constraint failed: categories.name"

/-- Modelled from the spec: the message the store uses for its
referential-constraint backstop error. -/
def sqliteFkMsg : String := "FOREIGN KEY constraint failed"

/-- Modelled from the spec: executing the insert statement on the
categories table. The store itself checks the uniqueness constraint (no
application pre-check): when a row with the same name exists it raises an
integrity error, otherwise it inserts the row and returns the new id. -/
def db_insert_category (s : Store) (name : String) : Except Exc (Store × Nat) :=
  if s.categories.any (fun c => c.name == name) then
    .error ⟨ExcType.sqliteIntegrity, sqliteUniqueMsg⟩
  else
    .ok ({ s with
            categories := s.categories ++ [⟨s.nextCategoryId, name⟩],
            nextCategoryId := s.nextCategoryId + 1 },
          s.nextCategoryId)

/-- Modelled from the spec: executing the delete statement on the
categories table. Every row with the given name is deleted unless one of
them is still referenced by a product, in which case the store raises its
foreign-key backstop error and deletes nothing. -/
def db_delete_category (s : Store) (name : String) : Except Exc Store :=
  if s.products.any (fun p =>
      s.categories.any (fun c => c.name == name && c.id == p.category_id)) then
    .error ⟨ExcType.fkViolation, sqliteFkMsg⟩
  else
    .ok { s with categories := s.categories.filter (fun c => c.name != name) }

/-- Controller read_categories: select all category rows. -/
def read_categories (s : Store) : List Category :=
  s.categories

/-- Controller write_category: execute the insert (no pre-check) and
return the content with the new id and the name. -/
def write_category (s : Store) (name : String) : Except Exc (Store × Category) :=
  match db_insert_category s name with
  | .ok (s1, category_id) => .ok (s1, ⟨category_id, name⟩)
  | .error e => .error e

/-- Controller read_category: fetch one category row with the given name,
if any. -/
def read_category (s : Store) (name : String) : Option Category :=
  s.categories.find? (fun c => c.name == name)

/-- Controller check_category_has_products: select product ids with the
given category_id, limited to one row; the result is whether a row came
back. An existence probe, not a count. -/
def check_category_has_products (s : Store) (category_id : Nat) : Bool :=
  ((s.products.filter (fun p => p.category_id == category_id)).take 1).head?.isSome

/-- Controller purge_category: execute the delete statement for the name. -/
def purge_category (s : Store) (name : String) : Except Exc Store :=
  db_delete_category s name

/-- Router GET handler get_categories. -/
def get_categories (s : Store) : List Category :=
  read_categories s

/-- The except block of the add_category handler: it catches only the
uniqueness-violation and sqlite integrity exception classes, reclassifies
the error as the 400 duplicate-name response when its lowered text
mentions unique or constraint, and re-raises it otherwise. -/
def add_category_on_error (e : Exc) : Outcome Category :=
  if e.ty == ExcType.uniqueViolation || e.ty == ExcType.sqliteIntegrity then
    let error_str := strToLower e.msg
    if strContains error_str "unique" || strContains error_str "constraint" then
      .httpError 400 "Category already exists"
    else
      .unhandled e
  else
    .unhandled e

/-- Router POST handler add_category: write the category and map a caught
store error through the except block; on failure the store is unchanged. -/
def add_category (s : Store) (name : String) : Outcome Category × Store :=
  match write_category s name with
  | .ok (s1, content) => (.ok content, s1)
  | .error e => (add_category_on_error e, s)

/-- The except block of the delete_category handler: it catches every
exception, reclassifies it as the 400 dependent-products response when its
lowered text mentions foreign or constraint, and re-raises it otherwise. -/
def delete_category_on_error (e : Exc) : Outcome Unit :=
  let error_str := strToLower e.msg
  if strContains error_str "foreign" || strContains error_str "constraint" then
    .httpError 400 "There are still products in the category"
  else
    .unhandled e

/-- Router DELETE handler delete_category: resolve the name; if absent
fail 400 not-found; if the category still has products fail 400 without
attempting the delete; otherwise purge the row, mapping a store error
through the except block. -/
def delete_category (s : Store) (name : String) : Outcome Unit × Store :=
  match read_category s name with
  | some check_category =>
      if check_category_has_products s check_category.id then
        (.httpError 400 "There are still products in the category", s)
      else
        match purge_category s name with
        | .ok s1 => (.ok (), s1)
        | .error e => (delete_category_on_error e, s)
  | none => (.httpError 400 "Category does not exist", s)

/-- The product payload returned by the product handlers: the stored
columns plus the denormalized category_name obtained by a join. -/
structure ProductOut where
  id : Nat
  name : String
  price : Rat
  category_id : Nat
  category_name : String
  created_at : Nat
deriving DecidableEq, Repr

/-- Modelled from the spec: the product-create handler (the products
router and controller are not under src; only the integration tests call
them). It resolves category_name; if absent it fails 404 with the
not-found detail and changes nothing; otherwise it inserts a product row
with the resolved category_id and created_at set to the current date
today, and returns the created product including the denormalized
category_id and category_name. -/
def create_product (s : Store) (today : Nat) (name : String) (price : Rat)
    (category_name : String) : Outcome ProductOut × Store :=
  match read_category s category_name with
  | none => (.httpError 404 "Category does not exist", s)
  | some cat =>
      (.ok ⟨s.nextProductId, name, price, cat.id, cat.name, today⟩,
       { s with
          products := s.products ++ [⟨s.nextProductId, name, price, cat.id, today⟩],
          nextProductId := s.nextProductId + 1 })

/-- Modelled from the spec: the product-delete handler (not under src):
it deletes the row by id, failing 404 when no row matches. -/
def delete_product (s : Store) (product_id : Nat) : Outcome Unit × Store :=
  if s.products.any (fun p => p.id == product_id) then
    (.ok (), { s with products := s.products.filter (fun p => p.id != product_id) })
  else
    (.httpError 404 "Product does not exist", s)

/-- Insert an element into a list kept ordered by the boolean comparison
le. -/
def insertLe {α : Type} (le : α → α → Bool) (a : α) : List α → List α
  | [] => [a]
  | b :: bs => if le a b then a :: b :: bs else b :: insertLe le a bs

/-- Insertion sort by the boolean comparison le; models the store's
order-by clause. -/
def sortLe {α : Type} (le : α → α → Bool) : List α → List α
  | [] => []
  | a :: as => insertLe le a (sortLe le as)

/-- Modelled from the spec: the join-and-filter part of the product list
handler (not under src). Product rows are joined with their category to
denormalize the name. When read_all is true every filter is ignored;
otherwise rows are restricted to those matching the supplied
category-name and date filters. -/
def filterProducts (s : Store) (read_all : Bool) (select_by_category : Option String)
    (select_by_date : Option Nat) : List ProductOut :=
  let joined := s.products.filterMap (fun p =>
    (s.categories.find? (fun c => c.id == p.category_id)).map (fun c =>
      ProductOut.mk p.id p.name p.price p.category_id c.name p.created_at))
  if read_all then joined
  else joined.filter (fun po =>
    (match select_by_category with
     | none => true
     | some cn => po.category_name == cn) &&
    (match select_by_date with
     | none => true
     | some d => po.created_at == d))

/-- Modelled from the spec: the order-by clause of the product list
handler. Sorting some true orders by price from expensive to cheap, some
false ascending, none keeps the store order. -/
def applySorting (sorting : Option Bool) (l : List ProductOut) : List ProductOut :=
  match sorting with
  | none => l
  | some true => sortLe (fun a b => decide (b.price ≤ a.price)) l
  | some false => sortLe (fun a b => decide (a.price ≤ b.price)) l

/-- Modelled from the spec: the product list handler (not under src):
join, filter, then sort. -/
def read_products (s : Store) (read_all : Bool) (select_by_category : Option String)
    (select_by_date : Option Nat) (sorting : Option Bool) : List ProductOut :=
  applySorting sorting (filterProducts s read_all select_by_category select_by_date)

/-- The store the service starts from: empty tables, counters at one. -/
def initialStore : Store :=
  ⟨[], [], 1, 1⟩

/-- Store states reachable from the empty store through the mutating
handlers of the service. -/
inductive Reachable : Store → Prop where
  | init : Reachable initialStore
  | addCat (s : Store) (name : String) :
      Reachable s → Reachable (add_category s name).2
  | delCat (s : Store) (name : String) :
      Reachable s → Reachable (delete_category s name).2
  | addProd (s : Store) (today : Nat) (name : String) (price : Rat) (cn : String) :
      Reachable s → Reachable (create_product s today name price cn).2
  | delProd (s : Store) (pid : Nat) :
      Reachable s → Reachable (delete_product s pid).2

/-- Referential integrity: every product's category_id references an
existing category row. -/
def FKOk (s : Store) : Prop :=
  ∀ p ∈ s.products, ∃ c ∈ s.categories, c.id = p.category_id

/-- The uniqueness constraint on category names, as a state predicate. -/
def UniqueNames (s : Store) : Prop :=
  s.categories.Pairwise (fun c d => c.name ≠ d.name)

/-- The store invariant maintained by every handler. -/
def Inv (s : Store) : Prop :=
  FKOk s ∧ UniqueNames s

theorem head_take_filter_isSome {α : Type} (p : α → Bool) (l : List α) :
    ((l.filter p).take 1).head?.isSome = true ↔ ∃ a ∈ l, p a = true := by
  induction l with
  | nil => simp
  | cons a t ih =>
    by_cases h : p a
    · simp [List.filter_cons, h]
    · simp only [List.filter_cons, h, if_false, Bool.false_eq_true, ih, List.mem_cons]
      constructor
      · rintro ⟨x, hx, hpx⟩
        exact ⟨x, Or.inr hx, hpx⟩
      · rintro ⟨x, hx | hx, hpx⟩
        · exact absurd hpx (by simp [hx, h])
        · exact ⟨x, hx, hpx⟩

theorem check_iff (s : Store) (cid : Nat) :
    check_category_has_products s cid = true ↔ ∃ p ∈ s.products, p.category_id = cid := by
  unfold check_category_has_products
  rw [head_take_filter_isSome]
  constructor
  · rintro ⟨p, hp, hpc⟩
    exact ⟨p, hp, by simpa using hpc⟩
  · rintro ⟨p, hp, hpc⟩
    exact ⟨p, hp, by simpa using hpc⟩

theorem read_category_mem {s : Store} {name : String} {c : Category}
    (h : read_category s name = some c) : c ∈ s.categories ∧ c.name = name := by
  refine ⟨List.mem_of_find?_eq_some h, ?_⟩
  simpa using List.find?_some h

theorem read_category_eq_none_iff {s : Store} {name : String} :
    read_category s name = none ↔ ∀ c ∈ s.categories, c.name ≠ name := by
  simp [read_category, List.find?_eq_none]

theorem name_inj_of_pairwise {l : List Category}
    (h : l.Pairwise (fun c d => c.name ≠ d.name)) :
    ∀ c ∈ l, ∀ d ∈ l, c.name = d.name → c = d := by
  induction l with
  | nil => intro c hc; cases hc
  | cons a t ih =>
    rcases List.pairwise_cons.mp h with ⟨ha, ht⟩
    intro c hc d hd he
    rcases List.mem_cons.mp hc with hc1 | hc2
    · rcases List.mem_cons.mp hd with hd1 | hd2
      · rw [hc1, hd1]
      · subst hc1; exact absurd he (ha d hd2)
    · rcases List.mem_cons.mp hd with hd1 | hd2
      · subst hd1; exact absurd he.symm (ha c hc2)
      · exact ih ht c hc2 d hd2 he

theorem add_category_fresh (s : Store) (name : String)
    (h : s.categories.any (fun c => c.name == name) = false) :
    add_category s name =
      (.ok ⟨s.nextCategoryId, name⟩,
       { s with categories := s.categories ++ [⟨s.nextCategoryId, name⟩],
                nextCategoryId := s.nextCategoryId + 1 }) := by
  simp [add_category, write_category, db_insert_category, h]

theorem add_category_dup (s : Store) (name : String)
    (h : s.categories.any (fun c => c.name == name) = true) :
    add_category s name = (.httpError 400 "Category already exists", s) := by
  have he : add_category_on_error ⟨ExcType.sqliteIntegrity, sqliteUniqueMsg⟩ =
      Outcome.httpError 400 "Category already exists" := by decide
  simp [add_category, write_category, db_insert_category, h, he]

theorem delete_category_not_found (s : Store) (name : String)
    (h : read_category s name = none) :
    delete_category s name = (.httpError 400 "Category does not exist", s) := by
  simp [delete_category, h]

theorem delete_category_blocked (s : Store) (name : String) (c : Category)
    (h : read_category s name = some c)
    (hp : check_category_has_products s c.id = true) :
    delete_category s name =
      (.httpError 400 "There are still products in the category", s) := by
  simp [delete_category, h, hp]

theorem delete_category_purge_ok (s : Store) (name : String) (c : Category)
    (h : read_category s name = some c)
    (hp : check_category_has_products s c.id = false)
    (hfk : s.products.any (fun p =>
      s.categories.any (fun d => d.name == name && d.id == p.category_id)) = false) :
    delete_category s name =
      (.ok (), { s with categories := s.categories.filter (fun d => d.name != name) }) := by
  simp [delete_category, h, hp, purge_category, db_delete_category, hfk]

theorem delete_category_fk_error (s : Store) (name : String) (c : Category)
    (h : read_category s name = some c)
    (hp : check_category_has_products s c.id = false)
    (hfk : s.products.any (fun p =>
      s.categories.any (fun d => d.name == name && d.id == p.category_id)) = true) :
    delete_category s name =
      (.httpError 400 "There are still products in the category", s) := by
  have he : delete_category_on_error ⟨ExcType.fkViolation, sqliteFkMsg⟩ =
      Outcome.httpError 400 "There are still products in the category" := by decide
  simp [delete_category, h, hp, purge_category, db_delete_category, hfk, he]

theorem delete_category_ok_or_unchanged (s : Store) (name : String) :
    (delete_category s name).1 = .ok () ∨ (delete_category s name).2 = s := by
  unfold delete_category
  cases hr : read_category s name with
  | none => right; rfl
  | some c =>
    by_cases hp : check_category_has_products s c.id
    · right; simp [hp]
    · cases hq : purge_category s name with
      | ok s1 => left; simp [hp, hq]
      | error e => right; simp [hp, hq]

theorem inv_initial : Inv initialStore := by
  constructor
  · intro p hp; cases hp
  · exact List.Pairwise.nil

theorem inv_add_category (s : Store) (name : String) (h : Inv s) :
    Inv (add_category s name).2 := by
  cases hany : s.categories.any (fun c => c.name == name) with
  | true => rw [add_category_dup s name hany]; exact h
  | false =>
    rw [add_category_fresh s name hany]
    rcases h with ⟨hfk, hun⟩
    constructor
    · intro p hp
      rcases hfk p hp with ⟨c, hc, hcid⟩
      exact ⟨c, List.mem_append_left _ hc, hcid⟩
    · refine List.pairwise_append.mpr ⟨hun, by simp, ?_⟩
      intro c hc d hd
      have hd1 : d = ⟨s.nextCategoryId, name⟩ := by simpa using hd
      intro hcd
      have hb : (c.name == name) = true := by
        subst hd1; simp only [beq_iff_eq]; exact hcd
      have : s.categories.any (fun c => c.name == name) = true :=
        List.any_eq_true.mpr ⟨c, hc, hb⟩
      rw [hany] at this; cases this

theorem inv_delete_category (s : Store) (name : String) (h : Inv s) :
    Inv (delete_category s name).2 := by
  cases hr : read_category s name with
  | none => rw [delete_category_not_found s name hr]; exact h
  | some c =>
    cases hck : check_category_has_products s c.id with
    | true => rw [delete_category_blocked s name c hr hck]; exact h
    | false =>
      cases hfk : s.products.any (fun p =>
          s.categories.any (fun d => d.name == name && d.id == p.category_id)) with
      | true => rw [delete_category_fk_error s name c hr hck hfk]; exact h
      | false =>
        rw [delete_category_purge_ok s name c hr hck hfk]
        rcases h with ⟨hfko, hun⟩
        constructor
        · intro p hp1
          rcases hfko p hp1 with ⟨d, hd, hdid⟩
          refine ⟨d, List.mem_filter.mpr ⟨hd, ?_⟩, hdid⟩
          have hdn : ¬ (d.name = name) := by
            intro hdn
            have : s.products.any (fun p =>
                s.categories.any (fun dd => dd.name == name && dd.id == p.category_id)) = true :=
              List.any_eq_true.mpr ⟨p, hp1, List.any_eq_true.mpr ⟨d, hd, by simp [hdn, hdid]⟩⟩
            rw [hfk] at this; cases this
          simpa using hdn
        · exact List.Pairwise.sublist (List.filter_sublist _) hun

theorem inv_create_product (s : Store) (today : Nat) (name : String) (price : Rat)
    (cn : String) (h : Inv s) : Inv (create_product s today name price cn).2 := by
  cases hr : read_category s cn with
  | none => simp only [create_product, hr]; exact h
  | some cat =>
    rcases read_category_mem hr with ⟨hmem, _⟩
    simp only [create_product, hr]
    rcases h with ⟨hfk, hun⟩
    refine ⟨?_, hun⟩
    intro p hp
    rcases List.mem_append.mp hp with hp1 | hp2
    · exact hfk p hp1
    · have hp3 : p = ⟨s.nextProductId, name, price, cat.id, today⟩ := by simpa using hp2
      subst hp3
      exact ⟨cat, hmem, rfl⟩

theorem inv_delete_product (s : Store) (pid : Nat) (h : Inv s) :
    Inv (delete_product s pid).2 := by
  cases hid : s.products.any (fun p => p.id == pid) with
  | true =>
    simp only [delete_product, hid, if_true]
    rcases h with ⟨hfk, hun⟩
    refine ⟨?_, hun⟩
    intro p hp
    exact hfk p (List.mem_of_mem_filter hp)
  | false =>
    simp only [delete_product, hid, Bool.false_eq_true, if_false]
    exact h

theorem reachable_inv (s : Store) (h : Reachable s) : Inv s := by
  induction h with
  | init => exact inv_initial
  | addCat s name _ ih => exact inv_add_category s name ih
  | delCat s name _ ih => exact inv_delete_category s name ih
  | addProd s today name price cn _ ih => exact inv_create_product s today name price cn ih
  | delProd s pid _ ih => exact inv_delete_product s pid ih

theorem delete_category_keeps_referenced (s : Store) (name : String)
    (c : Category) (hc : c ∈ s.categories)
    (hp : ∃ p ∈ s.products, p.category_id = c.id) :
    c ∈ (delete_category s name).2.categories := by
  cases hr : read_category s name with
  | none => rw [delete_category_not_found s name hr]; exact hc
  | some cc =>
    cases hck : check_category_has_products s cc.id with
    | true => rw [delete_category_blocked s name cc hr hck]; exact hc
    | false =>
      cases hfk : s.products.any (fun p =>
          s.categories.any (fun d => d.name == name && d.id == p.category_id)) with
      | true => rw [delete_category_fk_error s name cc hr hck hfk]; exact hc
      | false =>
        rw [delete_category_purge_ok s name cc hr hck hfk]
        rcases hp with ⟨p, hpmem, hpid⟩
        have hcname : ¬ (c.name = name) := by
          intro hn
          have : s.products.any (fun p =>
              s.categories.any (fun d => d.name == name && d.id == p.category_id)) = true :=
            List.any_eq_true.mpr ⟨p, hpmem, List.any_eq_true.mpr ⟨c, hc, by simp [hn, hpid]⟩⟩
          rw [hfk] at this; cases this
        exact List.mem_filter.mpr ⟨hc, by simpa using hcname⟩

theorem head?_insertLe {α : Type} (le : α → α → Bool) (a : α) (t : List α) :
    (insertLe le a t).head? = some a ∨ (insertLe le a t).head? = t.head? := by
  cases t with
  | nil => left; rfl
  | cons c u =>
    by_cases h : le a c
    · left; simp [insertLe, h]
    · right; simp [insertLe, h]

theorem chain'_insertLe {α : Type} (le : α → α → Bool)
    (htot : ∀ a b, le a b = true ∨ le b a = true) (a : α) :
    ∀ {l : List α}, List.Chain' (fun x y => le x y = true) l →
      List.Chain' (fun x y => le x y = true) (insertLe le a l) := by
  intro l
  induction l with
  | nil => intro _; simp [insertLe]
  | cons b t ih =>
    intro h
    by_cases hab : le a b
    · simp only [insertLe, hab, if_true]
      exact List.chain'_cons.mpr ⟨hab, h⟩
    · simp only [insertLe, hab, if_false]
      have hab' : ¬ le a b = true := hab
      have hba : le b a = true := (htot a b).resolve_left hab'
      have ht : List.Chain' (fun x y => le x y = true) t := (List.chain'_cons'.mp h).2
      refine List.chain'_cons'.mpr ⟨?_, ih ht⟩
      intro y hy
      rcases head?_insertLe le a t with h1 | h2
      · rw [h1] at hy
        have hya : a = y := by simpa using hy
        subst hya
        exact hba
      · rw [h2] at hy
        exact (List.chain'_cons'.mp h).1 y hy

theorem chain'_sortLe {α : Type} (le : α → α → Bool)
    (htot : ∀ a b, le a b = true ∨ le b a = true) (l : List α) :
    List.Chain' (fun x y => le x y = true) (sortLe le l) := by
  induction l with
  | nil => simp [sortLe]
  | cons a t ih => exact chain'_insertLe le htot a ih

theorem chain'_applySorting_desc (l : List ProductOut) :
    List.Chain' (fun x y : ProductOut => y.price ≤ x.price) (applySorting (some true) l) := by
  have htot : ∀ a b : ProductOut,
      (decide (b.price ≤ a.price)) = true ∨ (decide (a.price ≤ b.price)) = true := by
    intro a b
    rcases le_total b.price a.price with h | h
    · left; exact decide_eq_true h
    · right; exact decide_eq_true h
  have h := chain'_sortLe (fun a b : ProductOut => decide (b.price ≤ a.price)) htot l
  exact h.imp (fun x y hxy => of_decide_eq_true hxy)

theorem chain'_applySorting_asc (l : List ProductOut) :
    List.Chain' (fun x y : ProductOut => x.price ≤ y.price) (applySorting (some false) l) := by
  have htot : ∀ a b : ProductOut,
      (decide (a.price ≤ b.price)) = true ∨ (decide (b.price ≤ a.price)) = true := by
    intro a b
    rcases le_total a.price b.price with h | h
    · left; exact decide_eq_true h
    · right; exact decide_eq_true h
  have h := chain'_sortLe (fun a b : ProductOut => decide (a.price ≤ b.price)) htot l
  exact h.imp (fun x y hxy => of_decide_eq_true hxy)

theorem any_name_false_of_fresh {s : Store} {name : String}
    (h : ∀ c ∈ s.categories, c.name ≠ name) :
    s.categories.any (fun c => c.name == name) = false := by
  cases hx : s.categories.any (fun c => c.name == name) with
  | false => rfl
  | true =>
    rcases List.any_eq_true.mp hx with ⟨c, hc, hb⟩
    exact absurd (by simpa using hb) (h c hc)

/-- Example store obtained by creating the Tech category in the empty
store. -/
def exTech : Store := (add_category initialStore "Tech").2

/-- Example store with the Tech category and one product referencing it. -/
def exProd : Store := (create_product exTech 7 "Laptop" 1500 "Tech").2

/-- Example store with the Tech category and three products priced 1500,
25 and 59.99. -/
def exSort : Store :=
  (create_product (create_product exProd 7 "Mouse" 25 "Tech").2
    7 "Guide" (mkRat 5999 100) "Tech").2

/-- C1: in every reachable store state every product's category_id
references an existing category row, and the delete-category handler
never removes a category that still has a referencing product. -/
theorem referential_integrity (s : Store) (h : Reachable s) :
    (∀ p ∈ s.products, ∃ c ∈ s.categories, c.id = p.category_id) ∧
    (∀ name : String, ∀ c ∈ s.categories,
      (∃ p ∈ s.products, p.category_id = c.id) →
      c ∈ (delete_category s name).2.categories) :=
  ⟨(reachable_inv s h).1,
   fun name c hc hp => delete_category_keeps_referenced s name c hc hp⟩

/-- Witness for C1 at a concrete reachable store holding one category and
one referencing product. -/
theorem referential_integrity_witness :
    (∀ p ∈ exProd.products, ∃ c ∈ exProd.categories, c.id = p.category_id) ∧
    (∀ name : String, ∀ c ∈ exProd.categories,
      (∃ p ∈ exProd.products, p.category_id = c.id) →
      c ∈ (delete_category exProd name).2.categories) :=
  referential_integrity exProd
    (Reachable.addProd exTech 7 "Laptop" 1500 "Tech"
      (Reachable.addCat initialStore "Tech" Reachable.init))

/-- C2: category delete follows exactly the order resolve-name, then
dependent-products check, then delete: an unresolved name fails 400
not-found with the store untouched; a resolved category with a
referencing product fails 400 without attempting the delete; otherwise
the handler succeeds, the row is gone, every other row survives and the
products table is untouched. -/
theorem delete_category_decision_order (s : Store) (name : String) :
    (read_category s name = none →
      delete_category s name = (.httpError 400 "Category does not exist", s)) ∧
    (∀ c : Category, read_category s name = some c →
      (∃ p ∈ s.products, p.category_id = c.id) →
      delete_category s name =
        (.httpError 400 "There are still products in the category", s)) ∧
    (∀ c : Category, read_category s name = some c → UniqueNames s →
      (¬ ∃ p ∈ s.products, p.category_id = c.id) →
      (delete_category s name).1 = .ok () ∧
      c ∉ (delete_category s name).2.categories ∧
      (∀ d ∈ s.categories, d.name ≠ name → d ∈ (delete_category s name).2.categories) ∧
      (delete_category s name).2.products = s.products) := by
  refine ⟨fun h => delete_category_not_found s name h, ?_, ?_⟩
  · intro c hc hex
    exact delete_category_blocked s name c hc ((check_iff s c.id).mpr hex)
  · intro c hc hun hnex
    have hck : check_category_has_products s c.id = false := by
      cases h : check_category_has_products s c.id with
      | false => rfl
      | true => exact absurd ((check_iff s c.id).mp h) hnex
    rcases read_category_mem hc with ⟨hmem, hname⟩
    have hfk : s.products.any (fun p =>
        s.categories.any (fun d => d.name == name && d.id == p.category_id)) = false := by
      cases h : s.products.any (fun p =>
          s.categories.any (fun d => d.name == name && d.id == p.category_id)) with
      | false => rfl
      | true =>
        exfalso
        rcases List.any_eq_true.mp h with ⟨p, hpm, hinner⟩
        rcases List.any_eq_true.mp hinner with ⟨d, hdm, hb⟩
        have hdd : d.name = name ∧ d.id = p.category_id := by simpa using hb
        have hdc : d = c := name_inj_of_pairwise hun d hdm c hmem (by rw [hdd.1, hname])
        exact hnex ⟨p, hpm, by rw [← hdd.2, hdc]⟩
    rw [delete_category_purge_ok s name c hc hck hfk]
    refine ⟨rfl, ?_, ?_, rfl⟩
    · intro hmem1
      rcases List.mem_filter.mp hmem1 with ⟨_, hb⟩
      have : c.name ≠ name := by simpa using hb
      exact this hname
    · intro d hd hdn
      exact List.mem_filter.mpr ⟨hd, by simpa using hdn⟩

/-- Witness for C2 covering all three branches on concrete stores. -/
theorem delete_category_decision_order_witness :
    delete_category exTech "Nope" = (.httpError 400 "Category does not exist", exTech) ∧
    delete_category exProd "Tech" =
      (.httpError 400 "There are still products in the category", exProd) ∧
    ((delete_category exTech "Tech").1 = .ok () ∧
      Category.mk 1 "Tech" ∉ (delete_category exTech "Tech").2.categories ∧
      (∀ d ∈ exTech.categories, d.name ≠ "Tech" →
        d ∈ (delete_category exTech "Tech").2.categories) ∧
      (delete_category exTech "Tech").2.products = exTech.products) :=
  ⟨(delete_category_decision_order exTech "Nope").1 (by decide),
   (delete_category_decision_order exProd "Tech").2.1 ⟨1, "Tech"⟩ (by decide) (by decide),
   (delete_category_decision_order exTech "Tech").2.2 ⟨1, "Tech"⟩ (by decide)
     (by unfold UniqueNames; decide) (by decide)⟩

/-- C3: creating a category whose name already exists (exactly one row
with that name) fails 400 duplicate-name via the store's uniqueness
constraint, and the store still holds exactly one row with that name. -/
theorem duplicate_create (s : Store) (name : String)
    (h : s.categories.countP (fun c => c.name == name) = 1) :
    add_category s name = (.httpError 400 "Category already exists", s) ∧
    (add_category s name).2.categories.countP (fun c => c.name == name) = 1 := by
  have hany : s.categories.any (fun c => c.name == name) = true := by
    rw [List.any_eq_true]
    have hpos : 0 < s.categories.countP (fun c => c.name == name) := by
      rw [h]; exact Nat.one_pos
    exact List.countP_pos_iff.mp hpos
  have heq := add_category_dup s name hany
  exact ⟨heq, by rw [heq]; exact h⟩

/-- Witness for C3 at the store already holding the Tech category. -/
theorem duplicate_create_witness :
    add_category exTech "Tech" = (.httpError 400 "Category already exists", exTech) ∧
    (add_category exTech "Tech").2.categories.countP (fun c => c.name == "Tech") = 1 :=
  duplicate_create exTech "Tech" (by decide)

/-- C4: product creation against an absent category name fails 404 with
the store untouched; against an existing category it inserts exactly one
product row carrying the resolved category_id and the current date, and
returns the created product including category_id and category_name. -/
theorem create_product_result (s : Store) (today : Nat) (name : String)
    (price : Rat) (cn : String) :
    ((∀ c ∈ s.categories, c.name ≠ cn) →
      create_product s today name price cn = (.httpError 404 "Category does not exist", s)) ∧
    (∀ c : Category, c ∈ s.categories → c.name = cn → UniqueNames s →
      (create_product s today name price cn).1 =
        .ok ⟨s.nextProductId, name, price, c.id, c.name, today⟩ ∧
      (create_product s today name price cn).2.products =
        s.products ++ [⟨s.nextProductId, name, price, c.id, today⟩] ∧
      (create_product s today name price cn).2.categories = s.categories) := by
  constructor
  · intro h
    have hr : read_category s cn = none := read_category_eq_none_iff.mpr h
    simp [create_product, hr]
  · intro c hc hcn hun
    cases hr : read_category s cn with
    | none => exact absurd hcn (read_category_eq_none_iff.mp hr c hc)
    | some c2 =>
      rcases read_category_mem hr with ⟨hm2, hn2⟩
      have hcc : c2 = c := name_inj_of_pairwise hun c2 hm2 c hc (by rw [hn2, hcn])
      subst hcc
      simp [create_product, hr]

/-- Witness for C4: a missing category is rejected and an existing one
receives the product. -/
theorem create_product_result_witness :
    create_product exTech 7 "Camera" 300 "Missing" =
      (.httpError 404 "Category does not exist", exTech) ∧
    ((create_product exTech 7 "Laptop" 1500 "Tech").1 =
      .ok ⟨1, "Laptop", 1500, 1, "Tech", 7⟩ ∧
     (create_product exTech 7 "Laptop" 1500 "Tech").2.products =
      exTech.products ++ [⟨1, "Laptop", 1500, 1, 7⟩] ∧
     (create_product exTech 7 "Laptop" 1500 "Tech").2.categories = exTech.categories) :=
  ⟨(create_product_result exTech 7 "Camera" 300 "Missing").1 (by decide),
   (create_product_result exTech 7 "Laptop" 1500 "Tech").2 ⟨1, "Tech"⟩ (by decide)
     (by decide) (by unfold UniqueNames; decide)⟩

/-- C5: the dependent-products check answers true exactly when some
product row carries the given category_id, and it is the limit-one
existence probe over the filtered product rows, not a count. -/
theorem has_products_iff (s : Store) (category_id : Nat) :
    (check_category_has_products s category_id = true ↔
      ∃ p ∈ s.products, p.category_id = category_id) ∧
    check_category_has_products s category_id =
      ((s.products.filter (fun p => p.category_id == category_id)).take 1).head?.isSome :=
  ⟨check_iff s category_id, rfl⟩

/-- C6: a caught store error is reclassified into a 400 domain response
only when its lowered text matches the constraint patterns; any other
error escapes both handlers unchanged, never misreported as a domain
error. -/
theorem unrecognized_errors_propagate (e : Exc) :
    ((strContains (strToLower e.msg) "unique" = false ∧
      strContains (strToLower e.msg) "constraint" = false) →
      add_category_on_error e = .unhandled e) ∧
    ((strContains (strToLower e.msg) "foreign" = false ∧
      strContains (strToLower e.msg) "constraint" = false) →
      delete_category_on_error e = .unhandled e) ∧
    (add_category_on_error e ≠ .unhandled e →
      add_category_on_error e = .httpError 400 "Category already exists" ∧
      (e.ty = ExcType.uniqueViolation ∨ e.ty = ExcType.sqliteIntegrity) ∧
      (strContains (strToLower e.msg) "unique" = true ∨
       strContains (strToLower e.msg) "constraint" = true)) ∧
    (delete_category_on_error e ≠ .unhandled e →
      delete_category_on_error e = .httpError 400 "There are still products in the category" ∧
      (strContains (strToLower e.msg) "foreign" = true ∨
       strContains (strToLower e.msg) "constraint" = true)) := by
  refine ⟨?_, ?_, ?_, ?_⟩
  · rintro ⟨h1, h2⟩
    cases hty : (e.ty == ExcType.uniqueViolation || e.ty == ExcType.sqliteIntegrity) with
    | false => simp [add_category_on_error, hty]
    | true => simp [add_category_on_error, hty, h1, h2]
  · rintro ⟨h1, h2⟩
    simp [delete_category_on_error, h1, h2]
  · intro hne
    cases hty : (e.ty == ExcType.uniqueViolation || e.ty == ExcType.sqliteIntegrity) with
    | false => exact absurd (by simp [add_category_on_error, hty]) hne
    | true =>
      cases hm : (strContains (strToLower e.msg) "unique" ||
          strContains (strToLower e.msg) "constraint") with
      | false =>
        rcases Bool.or_eq_false_iff.mp hm with ⟨hm1, hm2⟩
        exact absurd (by simp [add_category_on_error, hty, hm1, hm2]) hne
      | true =>
        have hm' : strContains (strToLower e.msg) "unique" = true ∨
            strContains (strToLower e.msg) "constraint" = true := by simpa using hm
        have hty' : e.ty = ExcType.uniqueViolation ∨ e.ty = ExcType.sqliteIntegrity := by
          simpa using hty
        rcases hm' with hm1 | hm1
        · exact ⟨by simp [add_category_on_error, hty, hm1], hty', Or.inl hm1⟩
        · exact ⟨by simp [add_category_on_error, hty, hm1], hty', Or.inr hm1⟩
  · intro hne
    cases hm : (strContains (strToLower e.msg) "foreign" ||
        strContains (strToLower e.msg) "constraint") with
    | false =>
      rcases Bool.or_eq_false_iff.mp hm with ⟨hm1, hm2⟩
      exact absurd (by simp [delete_category_on_error, hm1, hm2]) hne
    | true =>
      have hm' : strContains (strToLower e.msg) "foreign" = true ∨
          strContains (strToLower e.msg) "constraint" = true := by simpa using hm
      rcases hm' with hm1 | hm1
      · exact ⟨by simp [delete_category_on_error, hm1], Or.inl hm1⟩
      · exact ⟨by simp [delete_category_on_error, hm1], Or.inr hm1⟩

/-- Witness for C6: an unrecognized disk error escapes both handlers,
while the store's own constraint messages are reclassified to 400. -/
theorem unrecognized_errors_propagate_witness :
    add_category_on_error ⟨ExcType.sqliteIntegrity, "disk failure"⟩ =
      .unhandled ⟨ExcType.sqliteIntegrity, "disk failure"⟩ ∧
    delete_category_on_error ⟨ExcType.generic, "disk failure"⟩ =
      .unhandled ⟨ExcType.generic, "disk failure"⟩ ∧
    (add_category_on_error ⟨ExcType.sqliteIntegrity, sqliteUniqueMsg⟩ =
        .httpError 400 "Category already exists" ∧
      ((Exc.mk ExcType.sqliteIntegrity sqliteUniqueMsg).ty = ExcType.uniqueViolation ∨
       (Exc.mk ExcType.sqliteIntegrity sqliteUniqueMsg).ty = ExcType.sqliteIntegrity) ∧
      (strContains (strToLower (Exc.mk ExcType.sqliteIntegrity sqliteUniqueMsg).msg) "unique" = true ∨
       strContains (strToLower (Exc.mk ExcType.sqliteIntegrity sqliteUniqueMsg).msg) "constraint" = true)) ∧
    (delete_category_on_error ⟨ExcType.fkViolation, sqliteFkMsg⟩ =
        .httpError 400 "There are still products in the category" ∧
      (strContains (strToLower (Exc.mk ExcType.fkViolation sqliteFkMsg).msg) "foreign" = true ∨
       strContains (strToLower (Exc.mk ExcType.fkViolation sqliteFkMsg).msg) "constraint" = true)) :=
  ⟨(unrecognized_errors_propagate ⟨ExcType.sqliteIntegrity, "disk failure"⟩).1 (by decide),
   (unrecognized_errors_propagate ⟨ExcType.generic, "disk failure"⟩).2.1 (by decide),
   (unrecognized_errors_propagate ⟨ExcType.sqliteIntegrity, sqliteUniqueMsg⟩).2.2.1 (by decide),
   (unrecognized_errors_propagate ⟨ExcType.fkViolation, sqliteFkMsg⟩).2.2.2 (by decide)⟩

/-- C7: with sorting requested the listed price sequence is monotonic,
non-increasing for expensive-to-cheap and non-decreasing for ascending;
on the concrete prices 1500, 25 and 59.99 the descending listing starts
at 1500 and the ascending one at 25. -/
theorem products_sorted (s : Store) (read_all : Bool) (cat : Option String)
    (d : Option Nat) :
    List.Chain' (fun x y : Rat => y ≤ x)
      ((read_products s read_all cat d (some true)).map ProductOut.price) ∧
    List.Chain' (fun x y : Rat => x ≤ y)
      ((read_products s read_all cat d (some false)).map ProductOut.price) ∧
    ((read_products exSort true none none (some true)).map ProductOut.price).head? =
      some 1500 ∧
    ((read_products exSort true none none (some false)).map ProductOut.price).head? =
      some 25 ∧
    (59.99 : Rat) = mkRat 5999 100 := by
  refine ⟨?_, ?_, by decide, by decide, by rw [Rat.mkRat_eq_div]; norm_num⟩
  · rw [List.chain'_map]
    exact chain'_applySorting_desc _
  · rw [List.chain'_map]
    exact chain'_applySorting_asc _

/-- C8: creating a category with a fresh name returns the created id and
that name, and listing categories afterwards shows exactly that category
under a name-exact match. -/
theorem create_then_list (s : Store) (name : String)
    (h : ∀ c ∈ s.categories, c.name ≠ name) :
    (add_category s name).1 = .ok ⟨s.nextCategoryId, name⟩ ∧
    (read_categories (add_category s name).2).filter (fun c => c.name == name) =
      [⟨s.nextCategoryId, name⟩] := by
  have hany := any_name_false_of_fresh h
  rw [add_category_fresh s name hany]
  refine ⟨rfl, ?_⟩
  show List.filter (fun c => c.name == name)
      (s.categories ++ [Category.mk s.nextCategoryId name]) =
    [Category.mk s.nextCategoryId name]
  rw [List.filter_append]
  have h1 : s.categories.filter (fun c => c.name == name) = [] := by
    rw [List.filter_eq_nil_iff]
    intro c hc
    simpa using h c hc
  rw [h1]
  simp

/-- Witness for C8: creating Electronics in the empty store and listing. -/
theorem create_then_list_witness :
    (add_category initialStore "Electronics").1 = .ok ⟨1, "Electronics"⟩ ∧
    (read_categories (add_category initialStore "Electronics").2).filter
      (fun c => c.name == "Electronics") = [⟨1, "Electronics"⟩] :=
  create_then_list initialStore "Electronics" (by decide)

/-- C9: writing a category performs no validation of the name's content:
any name not already present, the empty string included, is inserted and
the handler succeeds with the new id and that name. -/
theorem write_category_no_validation (s : Store) (name : String)
    (h : ∀ c ∈ s.categories, c.name ≠ name) :
    write_category s name =
      .ok ({ s with
              categories := s.categories ++ [⟨s.nextCategoryId, name⟩],
              nextCategoryId := s.nextCategoryId + 1 },
            ⟨s.nextCategoryId, name⟩) ∧
    (add_category s name).1 = .ok ⟨s.nextCategoryId, name⟩ := by
  have hany := any_name_false_of_fresh h
  constructor
  · simp [write_category, db_insert_category, hany]
  · rw [add_category_fresh s name hany]

/-- Witness for C9: the empty-string name is accepted into a nonempty
store. -/
theorem write_category_no_validation_witness :
    write_category exTech "" =
      .ok ({ exTech with
              categories := exTech.categories ++ [⟨2, ""⟩],
              nextCategoryId := 3 },
            ⟨2, ""⟩) ∧
    (add_category exTech "").1 = .ok ⟨2, ""⟩ := by
  have h := write_category_no_validation exTech "" (by decide)
  simpa using h

/-- C10: whenever the delete-category handler does not succeed, the store
it returns is exactly the store it was given: no row of either table is
deleted or modified. -/
theorem delete_category_atomic_on_error (s : Store) (name : String)
    (h : (delete_category s name).1 ≠ .ok ()) :
    (delete_category s name).2 = s :=
  (delete_category_ok_or_unchanged s name).resolve_left h

/-- Witness for C10: a delete of an absent category leaves the concrete
store untouched. -/
theorem delete_category_atomic_on_error_witness :
    (delete_category exProd "Nope").2 = exProd :=
  delete_category_atomic_on_error exProd "Nope" (by decide)

end CatStore
